import Mathlib

/-!
Verification of the CelesTLSH-CLI core (src/main.go): the TLSH distance
wrapper `calculateTLSHDistance`, the database scan `checkTLSHAgainstDatabase`
and the check-mode driver `executeCheck`.

The repository's own code is a thin shell over the external dependency
`github.com/glaslos/tlsh` (hash parsing and the TLSH diff); that dependency is
not part of this repository's sources, so it is modelled below from the spec's
HashCodec/DistanceScorer contract, realized by the standard TLSH string format
and diff algorithm.  CSV reading uses Go's `encoding/csv`, whose documented
behavior (field-count enforcement locked to the first record) is made explicit
in the model.
-/

namespace CelesTLSH

/-- Modelled from the spec: the external HashCodec hex alphabet
(`encoding/hex` digit decoding used by `tlsh.ParseStringToTlsh`).
Returns the value of one hex digit, or `none` for a non-hex character. -/
def hexDigit (c : Char) : Option Nat :=
  if '0' ≤ c ∧ c ≤ '9' then some (c.toNat - '0'.toNat)
  else if 'a' ≤ c ∧ c ≤ 'f' then some (c.toNat - 'a'.toNat + 10)
  else if 'A' ≤ c ∧ c ≤ 'F' then some (c.toNat - 'A'.toNat + 10)
  else none

/-- Modelled from the spec: `encoding/hex` string decoding.  An odd-length
string or any non-hex character fails; otherwise pairs of digits become
bytes (as `Nat` values below 256). -/
def hexDecode : List Char → Option (List Nat)
  | [] => some []
  | [_] => none
  | c1 :: c2 :: rest =>
    match hexDigit c1, hexDigit c2, hexDecode rest with
    | some h, some l, some bs => some ((h * 16 + l) :: bs)
    | _, _, _ => none

/-- Decode a hex string to its byte list, `none` on malformed input. -/
def hexDecodeString (s : String) : Option (List Nat) :=
  hexDecode s.data

/-- A parsed TLSH hash value: header checksum, encoded length byte, the two
quartile-ratio nibbles (and the raw ratio byte), and the 32-byte body. -/
structure Tlsh where
  checksum : Nat
  lValue : Nat
  q1Ratio : Nat
  q2Ratio : Nat
  qRatio : Nat
  code : List Nat
deriving DecidableEq

/-- Modelled from the spec: byte nibble swap used by the external codec when
reading the checksum and length header bytes. -/
def swapByte (b : Nat) : Nat :=
  (b % 16) * 16 + (b / 16 % 16)

/-- Modelled from the spec: the external HashCodec decode
(`tlsh.ParseStringToTlsh`), which is not part of this repository's sources.
Per the spec (section 4.1) decode accepts exactly the fixed-length hex
encoding — 70 hex digits making 35 bytes: 1 checksum byte, 1 length byte,
1 quartile-ratio byte, 32 body bytes — and fails on every other string
(empty, the not-applicable marker, truncated, or non-hex). -/
def parseStringToTlsh (hashString : String) : Option Tlsh :=
  match hexDecodeString hashString with
  | none => none
  | some hashByte =>
    if hashByte.length = 35 then
      some { checksum := swapByte (hashByte.getD 0 0)
           , lValue := swapByte (hashByte.getD 1 0)
           , q1Ratio := hashByte.getD 2 0 / 16 % 16
           , q2Ratio := hashByte.getD 2 0 % 16
           , qRatio := hashByte.getD 2 0
           , code := hashByte.drop 3 }
    else none

/-- Modelled from the spec: modular difference on a circle of size `R`, the
header-field distance primitive of the external DistanceScorer. -/
def modDiff (x y R : Nat) : Nat :=
  let dl := if y > x then y - x else x - y
  let dr := if y > x then x + R - y else y + R - x
  if dl > dr then dr else dl

/-- Modelled from the spec: distance contributed by one base-4 digit pair of
two body bytes; a difference of 3 is penalized to 6. -/
def bitPairDigitDiff (x y : Nat) : Nat :=
  let d := if x % 4 ≥ y % 4 then x % 4 - y % 4 else y % 4 - x % 4
  if d = 3 then d * 2 else d

/-- Modelled from the spec: distance between two body bytes, summing the four
base-4 digit distances (the external implementation tabulates this). -/
def bitPairsDiff : Nat → Nat → Nat → Nat
  | _, _, 0 => 0
  | x, y, z + 1 => bitPairDigitDiff x y + bitPairsDiff (x / 4) (y / 4) z

/-- Modelled from the spec: body distance of the external DistanceScorer,
summing byte distances position by position over the 32-byte digests. -/
def digestDistance (digest1 digest2 : List Nat) : Nat :=
  (List.zipWith (fun x y => bitPairsDiff x y 4) digest1 digest2).sum

/-- Circle size for the encoded length byte. -/
def rangeLvalue : Nat := 256

/-- Circle size for the quartile-ratio nibbles. -/
def rangeQRatio : Nat := 16

/-- Modelled from the spec: the external DistanceScorer
(`tlsh.Diff` / `diffTotal`), not part of this repository's sources: length
distance (with multiplier 12 above 1), the two quartile-ratio distances
(multiplier 12 above 1), a checksum mismatch penalty of 1, and the body
distance. -/
def diffTotal (t1 t2 : Tlsh) (lenDiff : Bool) : Nat :=
  let diffL :=
    if lenDiff then
      let ldiff := modDiff t1.lValue t2.lValue rangeLvalue
      if ldiff = 0 then 0
      else if ldiff = 1 then 1
      else ldiff * 12
    else 0
  let q1diff := modDiff t1.q1Ratio t2.q1Ratio rangeQRatio
  let diffQ1 := diffL + (if q1diff ≤ 1 then q1diff else (q1diff - 1) * 12)
  let q2diff := modDiff t1.q2Ratio t2.q2Ratio rangeQRatio
  let diffQ2 := diffQ1 + (if q2diff ≤ 1 then q2diff else (q2diff - 1) * 12)
  let diffC := if t1.checksum ≠ t2.checksum then diffQ2 + 1 else diffQ2
  diffC + digestDistance t1.code t2.code

/-- Distance between two parsed TLSH hashes (`(*Tlsh).Diff`). -/
def Tlsh.Diff (t t2 : Tlsh) : Nat :=
  diffTotal t t2 true

/-- A row in the TLSH hash database (struct `HashRecord` in main.go). -/
structure HashRecord where
  RepoName : String
  FileName : String
  Version : String
  TLSHHash : String
  SHA256Hash : String
  Imphash : String
  DateAdded : String
  Intel : String
  Distance : Nat
deriving DecidableEq

/-- The application configuration (struct `Config` in main.go). -/
structure Config where
  Mode : String
  FilePath : String
  Hash1 : String
  Hash2 : String
  DbPath : String
  Quiet : Bool
  OutputCSV : Bool

/-- The distance wrapper `calculateTLSHDistance` of main.go: parse both hash
strings, failing with the corresponding message, then take the TLSH diff. -/
def calculateTLSHDistance (hash1 hash2 : String) : Except String Nat :=
  match parseStringToTlsh hash1 with
  | none => Except.error "error parsing first hash"
  | some t1 =>
    match parseStringToTlsh hash2 with
    | none => Except.error "error parsing second hash"
    | some t2 => Except.ok (t1.Diff t2)

/-- The record-reading loop of `checkTLSHAgainstDatabase` in main.go.  Go's
`encoding/csv` reader locks `FieldsPerRecord` to the header's field count, so
reading a record with a different field count returns an error, which the loop
treats as fatal (`return nil, err`); records that read successfully are
skipped when shorter than 8 fields, when the fuzzy-hash field (column index 3)
is empty or the literal not-applicable marker, or when it fails TLSH parsing;
every remaining record becomes a match carrying its computed distance. -/
def processRecords (hashObj : Tlsh) (fieldsPerRecord : Nat) :
    List (List String) → Except String (List HashRecord)
  | [] => Except.ok []
  | record :: rest =>
    if record.length ≠ fieldsPerRecord then
      Except.error "error reading CSV record: wrong number of fields"
    else if record.length < 8 then
      processRecords hashObj fieldsPerRecord rest
    else
      let tlshHashStr := record.getD 3 ""
      if tlshHashStr = "" ∨ tlshHashStr = "N/A" then
        processRecords hashObj fieldsPerRecord rest
      else
        match parseStringToTlsh tlshHashStr with
        | none => processRecords hashObj fieldsPerRecord rest
        | some dbHashObj =>
          match processRecords hashObj fieldsPerRecord rest with
          | Except.error e => Except.error e
          | Except.ok ms =>
            Except.ok
              ({ RepoName := record.getD 0 ""
               , FileName := record.getD 1 ""
               , Version := record.getD 2 ""
               , TLSHHash := record.getD 3 ""
               , SHA256Hash := record.getD 4 ""
               , Imphash := record.getD 5 ""
               , DateAdded := record.getD 6 ""
               , Intel := record.getD 7 ""
               , Distance := hashObj.Diff dbHashObj } :: ms)

/-- The database check `checkTLSHAgainstDatabase` of main.go, over the list of
CSV records of the database file (header first).  An empty file fails the
header read; a header with fewer than 8 columns is a hard error; then the
query hash is parsed and the records are scanned.  With zero matches the
result is `none` (no match, not an error); otherwise the matches are sorted by
ascending distance and the first one is returned.  Go's `sort.Slice`
guarantees only a permutation sorted by the comparator — it is documented as
not stable — and the model realizes that postcondition with `List.mergeSort`;
no theorem below depends on which tied permutation is produced. -/
def checkTLSHAgainstDatabase (hashToCheck : String) (rows : List (List String)) :
    Except String (Option HashRecord) :=
  match rows with
  | [] => Except.error "error reading CSV header: EOF"
  | header :: rest =>
    let expectedColumns := 8
    if header.length < expectedColumns then
      Except.error "CSV header has fewer columns than expected"
    else
      match parseStringToTlsh hashToCheck with
      | none => Except.error "error parsing input hash"
      | some hashObj =>
        match processRecords hashObj header.length rest with
        | Except.error e => Except.error e
        | Except.ok ms =>
          if ms.length = 0 then Except.ok none
          else
            Except.ok
              (ms.mergeSort (fun a b => decide (a.Distance ≤ b.Distance))).head?

/-- The check-mode driver `executeCheck` of main.go, over an abstract
filesystem mapping a path to the CSV records of the file stored there (`none`
when the file does not exist).  A missing database file is an error advising
to download first; otherwise the database check runs and its error, if any, is
wrapped. -/
def executeCheck (config : Config) (fs : String → Option (List (List String))) :
    Except String (Option HashRecord) :=
  match fs config.DbPath with
  | none =>
    Except.error "database file does not exist; download it first with --download"
  | some rows =>
    match checkTLSHAgainstDatabase config.Hash1 rows with
    | Except.error e =>
      Except.error ("failed to check TLSH against database: " ++ e)
    | Except.ok m => Except.ok m

/-- A database row's fuzzy-hash field (column index 3) decodes to `t`: it is
non-empty, not the literal not-applicable marker, and parses successfully. -/
def decodesTo (record : List String) (t : Tlsh) : Prop :=
  record.getD 3 "" ≠ "" ∧ record.getD 3 "" ≠ "N/A" ∧
    parseStringToTlsh (record.getD 3 "") = some t

instance (record : List String) (t : Tlsh) : Decidable (decodesTo record t) := by
  unfold decodesTo; infer_instance

/-- One iteration of the record loop, for a record that reads successfully:
the match it contributes, if any. -/
def rowMatch (hashObj : Tlsh) (record : List String) : Option HashRecord :=
  if record.length < 8 then none
  else
    let tlshHashStr := record.getD 3 ""
    if tlshHashStr = "" ∨ tlshHashStr = "N/A" then none
    else
      match parseStringToTlsh tlshHashStr with
      | none => none
      | some dbHashObj =>
        some { RepoName := record.getD 0 ""
             , FileName := record.getD 1 ""
             , Version := record.getD 2 ""
             , TLSHHash := record.getD 3 ""
             , SHA256Hash := record.getD 4 ""
             , Imphash := record.getD 5 ""
             , DateAdded := record.getD 6 ""
             , Intel := record.getD 7 ""
             , Distance := hashObj.Diff dbHashObj }

/-! ### Concrete sample data for instantiating the theorems -/

/-- A TLSH encoding consisting of 70 zero hex digits. -/
def zeroHash : String :=
  "0000000000000000000000000000000000000000000000000000000000000000000000"

/-- The hash value the all-zero encoding decodes to. -/
def zeroTlsh : Tlsh :=
  { checksum := 0, lValue := 0, q1Ratio := 0, q2Ratio := 0, qRatio := 0
  , code := List.replicate 32 0 }

/-- A second valid 70-hex-digit TLSH encoding. -/
def oneHash : String :=
  "1234567890abcdef1234567890abcdef1234567890abcdef1234567890abcdef123456"

/-- The hash value `oneHash` decodes to. -/
def oneTlsh : Tlsh :=
  (parseStringToTlsh oneHash).getD
    { checksum := 0, lValue := 0, q1Ratio := 0, q2Ratio := 0, qRatio := 0, code := [] }

/-- The 8-column header of the hash database. -/
def sampleHeader : List String :=
  ["Repo Name", "File Name", "Release Version", "TLSH Hash", "SHA256 Hash",
   "Imphash", "Date Added", "Intel"]

/-- A well-formed data row whose fuzzy hash is the all-zero encoding. -/
def sampleRow : List String :=
  ["ToolA", "a.exe", "1.0", zeroHash, "sha256a", "impa", "2024-01-01", "nota"]

/-- A well-formed data row whose fuzzy hash is `oneHash`. -/
def sampleRowOne : List String :=
  ["ToolB", "b.exe", "2.0", oneHash, "sha256b", "impb", "2024-01-02", "notb"]

/-- A data row with only three fields. -/
def shortRow : List String :=
  ["OnlyThree", "fields", "here"]

/-- A well-formed data row whose fuzzy-hash field is the not-applicable
marker. -/
def naRow : List String :=
  ["ToolC", "c.exe", "3.0", "N/A", "sha256c", "impc", "2024-01-03", "notc"]

/-- A header with fewer than 8 columns. -/
def shortHeader : List String :=
  ["Repo Name", "File Name", "Release Version"]

/-- A well-formed data row whose fuzzy-hash field is the empty string. -/
def emptyHashRow : List String :=
  ["ToolD", "d.exe", "4.0", "", "sha256d", "impd", "2024-01-04", "notd"]

/-- A second ragged data row, with only two fields. -/
def shortRowB : List String :=
  ["ragged", "row"]

/-- A nine-field data row (one more than the header) whose fuzzy-hash field is
the not-applicable marker. -/
def naWideRow : List String :=
  ["ToolE", "e.exe", "5.0", "N/A", "sha256e", "impe", "2024-01-05", "note", "extra"]

/-- The match record the scan builds from `sampleRow` for the zero query. -/
def sampleBest : HashRecord :=
  { RepoName := "ToolA", FileName := "a.exe", Version := "1.0"
  , TLSHHash := zeroHash, SHA256Hash := "sha256a", Imphash := "impa"
  , DateAdded := "2024-01-01", Intel := "nota", Distance := 0 }

/-- A sample check-mode configuration. -/
def sampleConfig : Config :=
  { Mode := "check", FilePath := "", Hash1 := zeroHash, Hash2 := ""
  , DbPath := "tlsh_hashes.csv", Quiet := false, OutputCSV := false }

/-! ### Algebraic properties of the modelled TLSH distance -/

theorem modDiff_comm (x y R : Nat) : modDiff x y R = modDiff y x R := by
  unfold modDiff
  dsimp only
  split_ifs <;> omega

theorem modDiff_self (x R : Nat) : modDiff x x R = 0 := by
  unfold modDiff
  dsimp only
  split_ifs <;> omega

theorem bitPairDigitDiff_comm (x y : Nat) : bitPairDigitDiff x y = bitPairDigitDiff y x := by
  unfold bitPairDigitDiff
  dsimp only
  split_ifs <;> omega

theorem bitPairDigitDiff_self (x : Nat) : bitPairDigitDiff x x = 0 := by
  unfold bitPairDigitDiff
  dsimp only
  split_ifs <;> omega

theorem bitPairsDiff_comm (z : Nat) : ∀ x y, bitPairsDiff x y z = bitPairsDiff y x z := by
  induction z with
  | zero => intro x y; rfl
  | succ n ih =>
    intro x y
    simp only [bitPairsDiff, bitPairDigitDiff_comm x y, ih (x / 4) (y / 4)]

theorem bitPairsDiff_self (z x : Nat) : bitPairsDiff x x z = 0 := by
  induction z generalizing x with
  | zero => rfl
  | succ n ih =>
    simp only [bitPairsDiff, bitPairDigitDiff_self, ih, Nat.add_zero]

theorem digestDistance_comm (d1 : List Nat) :
    ∀ d2, digestDistance d1 d2 = digestDistance d2 d1 := by
  induction d1 with
  | nil => intro d2; cases d2 <;> rfl
  | cons x xs ih =>
    intro d2
    cases d2 with
    | nil => rfl
    | cons y ys =>
      simp only [digestDistance, List.zipWith_cons_cons, List.sum_cons,
        bitPairsDiff_comm 4 x y]
      have := ih ys
      simp only [digestDistance] at this
      rw [this]

theorem digestDistance_self (d : List Nat) : digestDistance d d = 0 := by
  induction d with
  | nil => rfl
  | cons x xs ih =>
    simp only [digestDistance, List.zipWith_cons_cons, List.sum_cons, bitPairsDiff_self]
    simpa [digestDistance] using ih

theorem diffTotal_comm (t1 t2 : Tlsh) (lenDiff : Bool) :
    diffTotal t1 t2 lenDiff = diffTotal t2 t1 lenDiff := by
  unfold diffTotal
  rw [modDiff_comm t1.lValue, modDiff_comm t1.q1Ratio, modDiff_comm t1.q2Ratio,
    digestDistance_comm t1.code]
  by_cases h : t1.checksum = t2.checksum <;> simp [h, Ne.symm, ne_comm]

theorem Tlsh.Diff_comm (t1 t2 : Tlsh) : t1.Diff t2 = t2.Diff t1 :=
  diffTotal_comm t1 t2 true

theorem diffTotal_self (t : Tlsh) (lenDiff : Bool) : diffTotal t t lenDiff = 0 := by
  unfold diffTotal
  simp [modDiff_self, digestDistance_self]

theorem Tlsh.Diff_self (t : Tlsh) : t.Diff t = 0 :=
  diffTotal_self t true

/-! ### Basic facts about the modelled codec -/

theorem parseStringToTlsh_empty : parseStringToTlsh "" = none := by decide

theorem parseStringToTlsh_NA : parseStringToTlsh "N/A" = none := by decide

/-! ### The record scan as a filter over the rows -/

theorem rowMatch_of_decodesTo (hashObj : Tlsh) (record : List String) (t : Tlsh)
    (hlen : ¬ record.length < 8) (hd : decodesTo record t) :
    rowMatch hashObj record =
      some { RepoName := record.getD 0 ""
           , FileName := record.getD 1 ""
           , Version := record.getD 2 ""
           , TLSHHash := record.getD 3 ""
           , SHA256Hash := record.getD 4 ""
           , Imphash := record.getD 5 ""
           , DateAdded := record.getD 6 ""
           , Intel := record.getD 7 ""
           , Distance := hashObj.Diff t } := by
  obtain ⟨hne, hna, hp⟩ := hd
  rw [rowMatch, if_neg hlen]
  dsimp only
  rw [if_neg (not_or.mpr ⟨hne, hna⟩), hp]

/-- When every row has the header's field count (at least 8), the scan
succeeds and produces exactly the matches of the decodable rows, in order. -/
theorem processRecords_eq_ok (hashObj : Tlsh) (n : Nat) (h8 : 8 ≤ n) :
    ∀ rows : List (List String), (∀ r ∈ rows, r.length = n) →
      processRecords hashObj n rows = Except.ok (rows.filterMap (rowMatch hashObj)) := by
  intro rows
  induction rows with
  | nil => intro _; rfl
  | cons record rest ih =>
    intro hlen
    have hr : record.length = n := hlen record (List.mem_cons_self record rest)
    have hrest : ∀ r ∈ rest, r.length = n := fun r hr2 => hlen r (List.mem_cons_of_mem _ hr2)
    have hnotlt : ¬ record.length < 8 := by omega
    rw [processRecords, List.filterMap_cons]
    rw [if_neg (not_not_intro hr), if_neg hnotlt]
    dsimp only
    by_cases hbad : record.getD 3 "" = "" ∨ record.getD 3 "" = "N/A"
    · have hrm : rowMatch hashObj record = none := by
        rw [rowMatch, if_neg hnotlt]
        dsimp only
        rw [if_pos hbad]
      rw [if_pos hbad, hrm, ih hrest]
    · rw [if_neg hbad]
      cases hp : parseStringToTlsh (record.getD 3 "") with
      | none =>
        have hrm : rowMatch hashObj record = none := by
          rw [rowMatch, if_neg hnotlt]
          dsimp only
          rw [if_neg hbad, hp]
        rw [hrm, ih hrest]
      | some dbHashObj =>
        have hrm : rowMatch hashObj record =
            some { RepoName := record.getD 0 ""
                 , FileName := record.getD 1 ""
                 , Version := record.getD 2 ""
                 , TLSHHash := record.getD 3 ""
                 , SHA256Hash := record.getD 4 ""
                 , Imphash := record.getD 5 ""
                 , DateAdded := record.getD 6 ""
                 , Intel := record.getD 7 ""
                 , Distance := hashObj.Diff dbHashObj } := by
          rw [rowMatch, if_neg hnotlt]
          dsimp only
          rw [if_neg hbad, hp]
        rw [hrm, ih hrest]

/-- Every match produced by a successful scan comes from some row of the
database, via `rowMatch`. -/
theorem processRecords_ok_mem (hashObj : Tlsh) (n : Nat) :
    ∀ (rows : List (List String)) (ms : List HashRecord),
      processRecords hashObj n rows = Except.ok ms →
      ∀ m ∈ ms, ∃ r ∈ rows, rowMatch hashObj r = some m := by
  intro rows
  induction rows with
  | nil =>
    intro ms hok m hm
    simp only [processRecords, Except.ok.injEq] at hok
    subst hok
    simp at hm
  | cons record rest ih =>
    intro ms hok m hm
    rw [processRecords] at hok
    by_cases h1 : record.length ≠ n
    · rw [if_pos h1] at hok; exact absurd hok (by simp)
    rw [if_neg h1] at hok
    by_cases h2 : record.length < 8
    · rw [if_pos h2] at hok
      obtain ⟨r, hrmem, hrm⟩ := ih ms hok m hm
      exact ⟨r, List.mem_cons_of_mem _ hrmem, hrm⟩
    rw [if_neg h2] at hok
    dsimp only at hok
    by_cases h3 : record.getD 3 "" = "" ∨ record.getD 3 "" = "N/A"
    · rw [if_pos h3] at hok
      obtain ⟨r, hrmem, hrm⟩ := ih ms hok m hm
      exact ⟨r, List.mem_cons_of_mem _ hrmem, hrm⟩
    rw [if_neg h3] at hok
    cases hp : parseStringToTlsh (record.getD 3 "") with
    | none =>
      rw [hp] at hok
      obtain ⟨r, hrmem, hrm⟩ := ih ms hok m hm
      exact ⟨r, List.mem_cons_of_mem _ hrmem, hrm⟩
    | some dbHashObj =>
      rw [hp] at hok
      cases hrest : processRecords hashObj n rest with
      | error e => rw [hrest] at hok; exact absurd hok (by simp)
      | ok ms2 =>
        rw [hrest] at hok
        simp only [Except.ok.injEq] at hok
        subst hok
        rcases List.mem_cons.mp hm with hm1 | hm2
        · refine ⟨record, List.mem_cons_self record rest, ?_⟩
          rw [rowMatch, if_neg h2]
          dsimp only
          rw [if_neg h3, hp, hm1]
        · obtain ⟨r, hrmem, hrm⟩ := ih ms2 hrest m hm2
          exact ⟨r, List.mem_cons_of_mem _ hrmem, hrm⟩

/-- If some row has a field count different from the header's, the scan fails
with an error (Go's csv reader enforces the field count). -/
theorem processRecords_error_of_badRow (hashObj : Tlsh) (n : Nat) :
    ∀ rows : List (List String), (∃ r ∈ rows, r.length ≠ n) →
      ∃ e, processRecords hashObj n rows = Except.error e := by
  intro rows
  induction rows with
  | nil => rintro ⟨r, hmem, _⟩; simp at hmem
  | cons record rest ih =>
    rintro ⟨r, hmem, hrlen⟩
    rw [processRecords]
    by_cases h1 : record.length ≠ n
    · exact ⟨_, by rw [if_pos h1]⟩
    rw [if_neg h1]
    have hr : r ∈ rest := by
      rcases List.mem_cons.mp hmem with h | h
      · subst h; exact absurd hrlen h1
      · exact h
    obtain ⟨e, he⟩ := ih ⟨r, hr, hrlen⟩
    by_cases h2 : record.length < 8
    · exact ⟨e, by rw [if_pos h2]; exact he⟩
    rw [if_neg h2]
    dsimp only
    by_cases h3 : record.getD 3 "" = "" ∨ record.getD 3 "" = "N/A"
    · exact ⟨e, by rw [if_pos h3]; exact he⟩
    rw [if_neg h3]
    cases hp : parseStringToTlsh (record.getD 3 "") with
    | none => exact ⟨e, he⟩
    | some dbHashObj => exact ⟨e, by rw [he]⟩

/-- A row whose fuzzy-hash field is empty, the not-applicable marker, or fails
TLSH parsing contributes no match. -/
theorem rowMatch_eq_none (hashObj : Tlsh) (record : List String)
    (hbad : record.getD 3 "" = "" ∨ record.getD 3 "" = "N/A" ∨
      parseStringToTlsh (record.getD 3 "") = none) :
    rowMatch hashObj record = none := by
  rw [rowMatch]
  by_cases h2 : record.length < 8
  · rw [if_pos h2]
  rw [if_neg h2]
  dsimp only
  rcases hbad with h | h | h
  · rw [if_pos (Or.inl h)]
  · rw [if_pos (Or.inr h)]
  · by_cases hb : record.getD 3 "" = "" ∨ record.getD 3 "" = "N/A"
    · rw [if_pos hb]
    · rw [if_neg hb, h]

/-- Inversion of `rowMatch`: a produced match carries the row's columns
unmodified and the distance computed against the row's decoded hash. -/
theorem rowMatch_some_inv (hashObj : Tlsh) (record : List String) (m : HashRecord)
    (h : rowMatch hashObj record = some m) :
    ∃ t, parseStringToTlsh (record.getD 3 "") = some t ∧
      m.RepoName = record.getD 0 "" ∧ m.FileName = record.getD 1 "" ∧
      m.Version = record.getD 2 "" ∧ m.TLSHHash = record.getD 3 "" ∧
      m.SHA256Hash = record.getD 4 "" ∧ m.Imphash = record.getD 5 "" ∧
      m.DateAdded = record.getD 6 "" ∧ m.Intel = record.getD 7 "" ∧
      m.Distance = hashObj.Diff t := by
  rw [rowMatch] at h
  by_cases h2 : record.length < 8
  · rw [if_pos h2] at h; exact Option.noConfusion h
  rw [if_neg h2] at h
  dsimp only at h
  by_cases h3 : record.getD 3 "" = "" ∨ record.getD 3 "" = "N/A"
  · rw [if_pos h3] at h; exact Option.noConfusion h
  rw [if_neg h3] at h
  cases hp : parseStringToTlsh (record.getD 3 "") with
  | none => rw [hp] at h; exact Option.noConfusion h
  | some t =>
    rw [hp] at h
    have hm := Option.some.inj h
    subst hm
    exact ⟨t, rfl, rfl, rfl, rfl, rfl, rfl, rfl, rfl, rfl, rfl⟩

/-- Removing a row whose fuzzy-hash field is empty, not-applicable, or
unparseable (and whose field count matches the header) does not change the
scan's result at all. -/
theorem processRecords_erase_bad (hashObj : Tlsh) (n : Nat) (row : List String)
    (h8 : 8 ≤ n) (hrowlen : row.length = n)
    (hbad : row.getD 3 "" = "" ∨ row.getD 3 "" = "N/A" ∨
      parseStringToTlsh (row.getD 3 "") = none) :
    ∀ pre post, processRecords hashObj n (pre ++ row :: post) =
      processRecords hashObj n (pre ++ post) := by
  intro pre
  induction pre with
  | nil =>
    intro post
    simp only [List.nil_append]
    rw [processRecords, if_neg (not_not_intro hrowlen), if_neg (by omega)]
    dsimp only
    rcases hbad with h | h | h
    · rw [if_pos (Or.inl h)]
    · rw [if_pos (Or.inr h)]
    · by_cases hb : row.getD 3 "" = "" ∨ row.getD 3 "" = "N/A"
      · rw [if_pos hb]
      · rw [if_neg hb, h]
  | cons p pre ih =>
    intro post
    simp only [List.cons_append]
    rw [processRecords, processRecords]
    by_cases h1 : p.length ≠ n
    · rw [if_pos h1, if_pos h1]
    rw [if_neg h1, if_neg h1]
    by_cases h2 : p.length < 8
    · rw [if_pos h2, if_pos h2, ih post]
    rw [if_neg h2, if_neg h2]
    dsimp only
    by_cases h3 : p.getD 3 "" = "" ∨ p.getD 3 "" = "N/A"
    · rw [if_pos h3, if_pos h3, ih post]
    rw [if_neg h3, if_neg h3]
    cases hp : parseStringToTlsh (p.getD 3 "") with
    | none => exact ih post
    | some dbHashObj => rw [ih post]

/-! ### The sorted best match -/

/-- The head of the distance-sorted match list has a distance no larger than
any match of the list. -/
theorem head_mergeSort_le (ms : List HashRecord) (best : HashRecord)
    (h : (ms.mergeSort fun a b => decide (a.Distance ≤ b.Distance)).head? = some best) :
    ∀ m ∈ ms, best.Distance ≤ m.Distance := by
  intro m hm
  have hmem : m ∈ ms.mergeSort fun a b => decide (a.Distance ≤ b.Distance) :=
    List.mem_mergeSort.mpr hm
  have hsorted :=
    @List.sorted_mergeSort HashRecord (fun a b => decide (a.Distance ≤ b.Distance))
      (by intro a b c hab hbc; simp only [decide_eq_true_eq] at *; omega)
      (by intro a b; simp only [Bool.or_eq_true, decide_eq_true_eq]; omega) ms
  cases hms : ms.mergeSort fun a b => decide (a.Distance ≤ b.Distance) with
  | nil => rw [hms] at h; exact Option.noConfusion h
  | cons b tl =>
    rw [hms] at h hmem hsorted
    have hb : b = best := Option.some.inj h
    subst hb
    rcases List.mem_cons.mp hmem with h1 | h1
    · rw [h1]
    · have hle := (List.pairwise_cons.mp hsorted).1 m h1
      simpa using hle

/-- Sorting a nonempty match list yields a head element. -/
theorem mergeSort_head_exists (ms : List HashRecord) (hne : ms ≠ []) :
    ∃ best, (ms.mergeSort fun a b => decide (a.Distance ≤ b.Distance)).head? = some best := by
  cases hms : ms.mergeSort fun a b => decide (a.Distance ≤ b.Distance) with
  | nil =>
    have hperm := List.mergeSort_perm ms fun a b => decide (a.Distance ≤ b.Distance)
    rw [hms] at hperm
    exact absurd (List.Perm.eq_nil hperm.symm) hne
  | cons b tl => exact ⟨b, rfl⟩

/-- Unfolding of the database check once the header passed, the query parsed
and the scan succeeded. -/
theorem checkTLSH_eq_of_ok (hashToCheck : String) (header : List String)
    (rest : List (List String)) (hashObj : Tlsh) (ms : List HashRecord)
    (hh : ¬ header.length < 8)
    (hq : parseStringToTlsh hashToCheck = some hashObj)
    (hms : processRecords hashObj header.length rest = Except.ok ms) :
    checkTLSHAgainstDatabase hashToCheck (header :: rest) =
      if ms.length = 0 then Except.ok none
      else
        Except.ok (ms.mergeSort fun a b => decide (a.Distance ≤ b.Distance)).head? := by
  rw [checkTLSHAgainstDatabase]
  rw [if_neg hh, hq]
  dsimp only
  rw [hms]

/-- Core of the nearest-match guarantee: with a valid header, rows of the
header's field count and at least one decodable row, the check returns a best
match whose distance is minimal among all decodable rows. -/
theorem check_min_aux (query : String) (header : List String)
    (rest : List (List String)) (q t0 : Tlsh) (r0 : List String)
    (hq : parseStringToTlsh query = some q)
    (hh : 8 ≤ header.length)
    (hlen : ∀ r ∈ rest, r.length = header.length)
    (hr0 : r0 ∈ rest) (ht0 : decodesTo r0 t0) :
    ∃ best, checkTLSHAgainstDatabase query (header :: rest) = Except.ok (some best) ∧
      ∀ r ∈ rest, ∀ t, decodesTo r t → best.Distance ≤ q.Diff t := by
  have hms := processRecords_eq_ok q header.length hh rest hlen
  have hr0len : ¬ r0.length < 8 := by
    have := hlen r0 hr0; omega
  have hrm0 := rowMatch_of_decodesTo q r0 t0 hr0len ht0
  have hmem0 : ∀ m, rowMatch q r0 = some m → m ∈ rest.filterMap (rowMatch q) :=
    fun m hm => List.mem_filterMap.mpr ⟨r0, hr0, hm⟩
  have hne : rest.filterMap (rowMatch q) ≠ [] :=
    List.ne_nil_of_mem (hmem0 _ hrm0)
  obtain ⟨best, hbest⟩ := mergeSort_head_exists _ hne
  refine ⟨best, ?_, ?_⟩
  · rw [checkTLSH_eq_of_ok query header rest q _ (by omega) hq hms,
      if_neg (by simpa [List.length_eq_zero] using hne), hbest]
  · intro r hr t ht
    have hrlen : ¬ r.length < 8 := by
      have := hlen r hr; omega
    have hrm := rowMatch_of_decodesTo q r t hrlen ht
    have hmem : _ ∈ rest.filterMap (rowMatch q) := List.mem_filterMap.mpr ⟨r, hr, hrm⟩
    exact head_mergeSort_le _ best hbest _ hmem

/-! ### The claims -/

/-- C1 counterexample: the frozen claim fails as stated.  The database
`[sampleHeader, sampleRow, shortRow]` has a valid 8-column header and a
decodable record (`sampleRow` decodes to the zero hash), yet the check returns
a read error — not a record at all — because the csv reader makes the ragged
third row fatal. -/
theorem C1_counterexample :
    decodesTo sampleRow zeroTlsh ∧
      checkTLSHAgainstDatabase zeroHash [sampleHeader, sampleRow, shortRow] =
        Except.error "error reading CSV record: wrong number of fields" ∧
      ∀ best, checkTLSHAgainstDatabase zeroHash [sampleHeader, sampleRow, shortRow] ≠
        Except.ok (some best) := by
  have he : checkTLSHAgainstDatabase zeroHash [sampleHeader, sampleRow, shortRow] =
      Except.error "error reading CSV record: wrong number of fields" := rfl
  exact ⟨by decide, he, fun best h => by rw [he] at h; exact Except.noConfusion h⟩

/-- C1 (amended): For every database whose header is valid, whose data rows
all carry the header's field count (any other row makes the csv read, and with
it the whole check, fail), and that contains at least one decodable record,
the nearest-match search (`checkTLSHAgainstDatabase`) returns a record whose
computed distance to the query hash is less than or equal to the distance of
every other decodable record in the database. -/
theorem C1_nearest_match_min_distance (query : String) (header : List String)
    (rest : List (List String)) (q t0 : Tlsh) (r0 : List String)
    (hq : parseStringToTlsh query = some q)
    (hh : 8 ≤ header.length)
    (hlen : ∀ r ∈ rest, r.length = header.length)
    (hr0 : r0 ∈ rest) (ht0 : decodesTo r0 t0) :
    ∃ best, checkTLSHAgainstDatabase query (header :: rest) = Except.ok (some best) ∧
      ∀ r ∈ rest, ∀ t, decodesTo r t → best.Distance ≤ q.Diff t :=
  check_min_aux query header rest q t0 r0 hq hh hlen hr0 ht0

/-- C1 witness: a concrete two-row database queried with the zero hash. -/
theorem C1_witness :
    ∃ best, checkTLSHAgainstDatabase zeroHash [sampleHeader, sampleRowOne, sampleRow] =
        Except.ok (some best) ∧
      ∀ r ∈ [sampleRowOne, sampleRow], ∀ t, decodesTo r t →
        best.Distance ≤ zeroTlsh.Diff t :=
  C1_nearest_match_min_distance zeroHash sampleHeader [sampleRowOne, sampleRow]
    zeroTlsh zeroTlsh sampleRow (by decide) (by decide) (by decide) (by decide) (by decide)

/-- C3 counterexample: a database whose second row has only 3 fields makes the
whole check fail with a read error — the short row is not skipped, the check
does not succeed, and the following valid row is never considered. -/
theorem C3_counterexample :
    checkTLSHAgainstDatabase zeroHash [sampleHeader, shortRow, sampleRow] =
        Except.error "error reading CSV record: wrong number of fields" ∧
      ∀ result, checkTLSHAgainstDatabase zeroHash [sampleHeader, shortRow, sampleRow] ≠
        Except.ok result := by
  have he : checkTLSHAgainstDatabase zeroHash [sampleHeader, shortRow, sampleRow] =
      Except.error "error reading CSV record: wrong number of fields" := rfl
  exact ⟨he, fun result h => by rw [he] at h; exact Except.noConfusion h⟩

/-- C3 (amended): a data row with fewer than 8 fields is fatal to the whole
database check: since the csv reader enforces the header's field count, the
check fails with an error instead of skipping the row and continuing. -/
theorem C3_amended_short_row_fatal (query : String) (header : List String)
    (rest : List (List String)) (q : Tlsh) (r0 : List String)
    (hq : parseStringToTlsh query = some q)
    (hh : 8 ≤ header.length)
    (hr0 : r0 ∈ rest) (hshort : r0.length < 8) :
    ∃ e, checkTLSHAgainstDatabase query (header :: rest) = Except.error e := by
  obtain ⟨e, he⟩ :=
    processRecords_error_of_badRow q header.length rest ⟨r0, hr0, by omega⟩
  refine ⟨e, ?_⟩
  rw [checkTLSHAgainstDatabase]
  rw [if_neg (by omega : ¬ header.length < 8), hq]
  dsimp only
  rw [he]

/-- C3 amended-claim witness: the short row of the counterexample database is
fatal. -/
theorem C3_amended_witness :
    ∃ e, checkTLSHAgainstDatabase zeroHash [sampleHeader, shortRow, sampleRow] =
      Except.error e :=
  C3_amended_short_row_fatal zeroHash sampleHeader [shortRow, sampleRow] zeroTlsh
    shortRow (by decide) (by decide) (by decide) (by decide)

/-- C4 counterexample: the frozen claim fails as stated.  `naWideRow` is a
database row whose fuzzy-hash field (column index 3) is the not-applicable
marker, yet its presence makes the whole check fail: it carries nine fields
against an 8-column header, so the csv reader returns a field-count error that
the check propagates instead of skipping the row. -/
theorem C4_counterexample :
    naWideRow.getD 3 "" = "N/A" ∧
      checkTLSHAgainstDatabase zeroHash [sampleHeader, naWideRow, sampleRow] =
        Except.error "error reading CSV record: wrong number of fields" ∧
      ∀ result, checkTLSHAgainstDatabase zeroHash [sampleHeader, naWideRow, sampleRow] ≠
        Except.ok result := by
  have he : checkTLSHAgainstDatabase zeroHash [sampleHeader, naWideRow, sampleRow] =
      Except.error "error reading CSV record: wrong number of fields" := rfl
  exact ⟨rfl, he, fun result h => by rw [he] at h; exact Except.noConfusion h⟩

/-- C4 (amended): a row carrying the header's field count whose fuzzy-hash
field (column index 3) is empty, the literal not-applicable marker, or fails
TLSH parsing is excluded from the candidate match set and never causes the
check to fail: the check returns exactly what it returns on the database
without that row.  (A row with a different field count is fatal to the whole
check regardless of its fuzzy-hash field.) -/
theorem C4_bad_hash_row_excluded (query : String) (header : List String)
    (pre post : List (List String)) (row : List String)
    (hh : 8 ≤ header.length)
    (hrowlen : row.length = header.length)
    (hbad : row.getD 3 "" = "" ∨ row.getD 3 "" = "N/A" ∨
      parseStringToTlsh (row.getD 3 "") = none) :
    checkTLSHAgainstDatabase query (header :: (pre ++ row :: post)) =
      checkTLSHAgainstDatabase query (header :: (pre ++ post)) := by
  rw [checkTLSHAgainstDatabase, checkTLSHAgainstDatabase]
  have hh8 : ¬ header.length < 8 := by omega
  rw [if_neg hh8]
  rw [if_neg hh8]
  cases hq : parseStringToTlsh query with
  | none => rfl
  | some q =>
    dsimp only
    rw [processRecords_erase_bad q header.length row hh hrowlen hbad pre post]

/-- C4 witness: the not-applicable row is transparent to the check. -/
theorem C4_witness :
    checkTLSHAgainstDatabase zeroHash [sampleHeader, naRow, sampleRow] =
      checkTLSHAgainstDatabase zeroHash [sampleHeader, sampleRow] :=
  C4_bad_hash_row_excluded zeroHash sampleHeader [] [sampleRow] naRow
    (by decide) (by decide) (Or.inr (Or.inl (by decide)))

/-- C5: a header with fewer than 8 columns makes the check fail with the
header error, for every query and every tail of rows — no record is ever
scanned and the content of the remaining rows is irrelevant. -/
theorem C5_short_header_fatal (query : String) (header : List String)
    (rest : List (List String)) (hh : header.length < 8) :
    checkTLSHAgainstDatabase query (header :: rest) =
      Except.error "CSV header has fewer columns than expected" := by
  rw [checkTLSHAgainstDatabase]
  rw [if_pos hh]

/-- C5 witness: a 3-column header fails the check whatever follows. -/
theorem C5_witness :
    checkTLSHAgainstDatabase "not a hash" [shortHeader, shortRow, sampleRow] =
      Except.error "CSV header has fewer columns than expected" :=
  C5_short_header_fatal "not a hash" shortHeader [shortRow, sampleRow] (by decide)

/-- C6 counterexample: the frozen claim fails as stated.  The database
`[sampleHeader, shortRow]` has a valid 8-column header and zero rows yielding
a decodable fuzzy hash (the only data row has three fields, so its fuzzy-hash
column reads as the empty string), yet the check does not return the no-match
outcome: the csv reader's field-count error makes it fail instead. -/
theorem C6_counterexample :
    shortRow.getD 3 "" = "" ∧
      checkTLSHAgainstDatabase zeroHash [sampleHeader, shortRow] =
        Except.error "error reading CSV record: wrong number of fields" ∧
      checkTLSHAgainstDatabase zeroHash [sampleHeader, shortRow] ≠ Except.ok none := by
  have he : checkTLSHAgainstDatabase zeroHash [sampleHeader, shortRow] =
      Except.error "error reading CSV record: wrong number of fields" := rfl
  exact ⟨rfl, he, fun h => by rw [he] at h; exact Except.noConfusion h⟩

/-- C6 (amended): with a valid header, data rows all carrying the header's
field count, and a valid query hash, a database none of whose rows has a
decodable fuzzy hash yields the no-match outcome `Except.ok none` — not an
error, and not some default record. -/
theorem C6_zero_decodable_no_match (query : String) (header : List String)
    (rest : List (List String)) (q : Tlsh)
    (hq : parseStringToTlsh query = some q)
    (hh : 8 ≤ header.length)
    (hlen : ∀ r ∈ rest, r.length = header.length)
    (hnone : ∀ r ∈ rest, r.getD 3 "" = "" ∨ r.getD 3 "" = "N/A" ∨
      parseStringToTlsh (r.getD 3 "") = none) :
    checkTLSHAgainstDatabase query (header :: rest) = Except.ok none := by
  have hms := processRecords_eq_ok q header.length hh rest hlen
  have hnil : rest.filterMap (rowMatch q) = [] :=
    List.filterMap_eq_nil_iff.mpr fun r hr => rowMatch_eq_none q r (hnone r hr)
  rw [checkTLSH_eq_of_ok query header rest q _ (by omega) hq hms, hnil]
  rfl

/-- C6 witness: a database whose rows carry only the not-applicable marker or
an empty fuzzy-hash field reports no match. -/
theorem C6_witness :
    checkTLSHAgainstDatabase zeroHash [sampleHeader, naRow, emptyHashRow] =
      Except.ok none :=
  C6_zero_decodable_no_match zeroHash sampleHeader [naRow, emptyHashRow] zeroTlsh
    (by decide) (by decide) (by decide) (by decide)

/-- C7: for all hash strings that both parse successfully, the distance
computation is symmetric: `calculateTLSHDistance a b = calculateTLSHDistance
b a`. -/
theorem C7_distance_symmetric (a b : String) (t1 t2 : Tlsh)
    (h1 : parseStringToTlsh a = some t1) (h2 : parseStringToTlsh b = some t2) :
    calculateTLSHDistance a b = calculateTLSHDistance b a := by
  unfold calculateTLSHDistance
  rw [h1, h2]
  dsimp only
  rw [Tlsh.Diff_comm]

/-- C7 witness: symmetry at two concrete decodable hashes. -/
theorem C7_witness :
    calculateTLSHDistance zeroHash oneHash = calculateTLSHDistance oneHash zeroHash :=
  C7_distance_symmetric zeroHash oneHash zeroTlsh oneTlsh (by decide) (by decide)

/-- C8 counterexample: the frozen claim fails as stated.  The database
`[sampleHeader, sampleRow, shortRowB]` contains a row whose fuzzy-hash field
is verbatim the (decodable) query hash, yet the check returns no distance-0
match — no match at all — because the ragged final row makes the csv read,
and with it the whole check, fail. -/
theorem C8_counterexample :
    sampleRow.getD 3 "" = zeroHash ∧
      checkTLSHAgainstDatabase zeroHash [sampleHeader, sampleRow, shortRowB] =
        Except.error "error reading CSV record: wrong number of fields" ∧
      ∀ best, checkTLSHAgainstDatabase zeroHash [sampleHeader, sampleRow, shortRowB] ≠
        Except.ok (some best) := by
  have he : checkTLSHAgainstDatabase zeroHash [sampleHeader, sampleRow, shortRowB] =
      Except.error "error reading CSV record: wrong number of fields" := rfl
  exact ⟨rfl, he, fun best h => by rw [he] at h; exact Except.noConfusion h⟩

/-- C8 (amended): if some row's fuzzy-hash field is verbatim the (decodable)
query string and the data rows all carry the header's field count, the check
returns a best match at distance 0. -/
theorem C8_verbatim_query_zero_distance (query : String) (header : List String)
    (rest : List (List String)) (q : Tlsh) (r0 : List String)
    (hq : parseStringToTlsh query = some q)
    (hh : 8 ≤ header.length)
    (hlen : ∀ r ∈ rest, r.length = header.length)
    (hr0 : r0 ∈ rest) (hv : r0.getD 3 "" = query) :
    ∃ best, checkTLSHAgainstDatabase query (header :: rest) = Except.ok (some best) ∧
      best.Distance = 0 := by
  have hne : query ≠ "" := fun h => by
    rw [h, parseStringToTlsh_empty] at hq; exact Option.noConfusion hq
  have hna : query ≠ "N/A" := fun h => by
    rw [h, parseStringToTlsh_NA] at hq; exact Option.noConfusion hq
  have hd : decodesTo r0 q := by
    unfold decodesTo
    rw [hv]
    exact ⟨hne, hna, hq⟩
  obtain ⟨best, hb, hmin⟩ := check_min_aux query header rest q q r0 hq hh hlen hr0 hd
  refine ⟨best, hb, ?_⟩
  have hle := hmin r0 hr0 q hd
  rw [Tlsh.Diff_self] at hle
  omega

/-- C8 witness: the zero hash present verbatim in the database is matched at
distance 0. -/
theorem C8_witness :
    ∃ best, checkTLSHAgainstDatabase zeroHash [sampleHeader, sampleRowOne, sampleRow] =
        Except.ok (some best) ∧ best.Distance = 0 :=
  C8_verbatim_query_zero_distance zeroHash sampleHeader [sampleRowOne, sampleRow]
    zeroTlsh sampleRow (by decide) (by decide) (by decide) (by decide) (by decide)

/-- C9: in check mode, when the database file does not exist, `executeCheck`
fails with the download-first error and never reports a (no-)match outcome. -/
theorem C9_missing_database_error (config : Config)
    (fs : String → Option (List (List String)))
    (h : fs config.DbPath = none) :
    executeCheck config fs =
        Except.error "database file does not exist; download it first with --download" ∧
      ∀ result, executeCheck config fs ≠ Except.ok result := by
  have he : executeCheck config fs =
      Except.error "database file does not exist; download it first with --download" := by
    unfold executeCheck
    rw [h]
  exact ⟨he, fun result hr => by rw [he] at hr; exact Except.noConfusion hr⟩

/-- C9 witness: a filesystem with no files at all. -/
theorem C9_witness :
    executeCheck sampleConfig (fun _ => none) =
        Except.error "database file does not exist; download it first with --download" ∧
      ∀ result, executeCheck sampleConfig (fun _ => none) ≠ Except.ok result :=
  C9_missing_database_error sampleConfig (fun _ => none) rfl

/-- C10: every best match the check returns was built from some database row:
its eight text fields are copied unmodified from that row's columns, and its
Distance field is exactly the TLSH distance between the query hash and that
same row's decoded fuzzy hash. -/
theorem C10_match_invariant (query : String) (header : List String)
    (rest : List (List String)) (m : HashRecord)
    (h : checkTLSHAgainstDatabase query (header :: rest) = Except.ok (some m)) :
    ∃ q, parseStringToTlsh query = some q ∧
      ∃ r ∈ rest, ∃ t, parseStringToTlsh (r.getD 3 "") = some t ∧
        m.RepoName = r.getD 0 "" ∧ m.FileName = r.getD 1 "" ∧
        m.Version = r.getD 2 "" ∧ m.TLSHHash = r.getD 3 "" ∧
        m.SHA256Hash = r.getD 4 "" ∧ m.Imphash = r.getD 5 "" ∧
        m.DateAdded = r.getD 6 "" ∧ m.Intel = r.getD 7 "" ∧
        m.Distance = q.Diff t := by
  rw [checkTLSHAgainstDatabase] at h
  by_cases hhd : header.length < 8
  · rw [if_pos hhd] at h; exact Except.noConfusion h
  rw [if_neg hhd] at h
  cases hq : parseStringToTlsh query with
  | none => rw [hq] at h; exact Except.noConfusion h
  | some q =>
    rw [hq] at h
    dsimp only at h
    cases hms : processRecords q header.length rest with
    | error e => rw [hms] at h; exact Except.noConfusion h
    | ok ms =>
      rw [hms] at h
      dsimp only at h
      by_cases hz : ms.length = 0
      · rw [if_pos hz] at h
        exact Option.noConfusion (Except.ok.inj h)
      rw [if_neg hz] at h
      have hhead := Except.ok.inj h
      have hmem : m ∈ ms := by
        cases hs : ms.mergeSort fun a b => decide (a.Distance ≤ b.Distance) with
        | nil => rw [hs] at hhead; exact Option.noConfusion hhead
        | cons b tl =>
          rw [hs] at hhead
          have hb : b = m := Option.some.inj hhead
          have hmem2 : m ∈ ms.mergeSort fun a b => decide (a.Distance ≤ b.Distance) := by
            rw [hs, hb]
            exact List.mem_cons_self _ _
          exact List.mem_mergeSort.mp hmem2
      obtain ⟨r, hr, hrm⟩ := processRecords_ok_mem q header.length rest ms hms m hmem
      obtain ⟨t, hpt, e0, e1, e2, e3, e4, e5, e6, e7, e8⟩ := rowMatch_some_inv q r m hrm
      exact ⟨q, rfl, r, hr, t, hpt, e0, e1, e2, e3, e4, e5, e6, e7, e8⟩

/-- C10 witness: the best match of a concrete one-row database carries the
row's columns and the computed distance 0. -/
theorem C10_witness :
    ∃ q, parseStringToTlsh zeroHash = some q ∧
      ∃ r ∈ [sampleRow], ∃ t, parseStringToTlsh (r.getD 3 "") = some t ∧
        sampleBest.RepoName = r.getD 0 "" ∧ sampleBest.FileName = r.getD 1 "" ∧
        sampleBest.Version = r.getD 2 "" ∧ sampleBest.TLSHHash = r.getD 3 "" ∧
        sampleBest.SHA256Hash = r.getD 4 "" ∧ sampleBest.Imphash = r.getD 5 "" ∧
        sampleBest.DateAdded = r.getD 6 "" ∧ sampleBest.Intel = r.getD 7 "" ∧
        sampleBest.Distance = q.Diff t := by
  have hpr : processRecords zeroTlsh sampleHeader.length [sampleRow] =
      Except.ok [sampleBest] := rfl
  have hch : checkTLSHAgainstDatabase zeroHash [sampleHeader, sampleRow] =
      Except.ok (some sampleBest) := by
    rw [checkTLSH_eq_of_ok zeroHash sampleHeader [sampleRow] zeroTlsh [sampleBest]
      (by decide) (by decide) hpr]
    simp [List.mergeSort]
  exact C10_match_invariant zeroHash sampleHeader [sampleRow] sampleBest hch

end CelesTLSH
